import Mathlib

/-
  Verification development for the ether-converter repository.

  The repository has two layers:
  * an offline correction script (scripts/swap-and-convert-with-manual-deposits.ts,
    here namespace SwapScript) that fetches Deposit/Withdrawal rows, applies a
    deterministic WETH/weETH address-swap correction, converts raw amounts with
    decimal.js, and aggregates per-(user, tx) and per-user totals;
  * a subgraph mapping (src/helpers.ts, here namespace Helpers; an older variant
    src/mapping/helpers.ts, here namespace MappingHelpers; and the event handlers
    in src/mapping/curve-stable-swap.ts, here namespace CurveMapping).

  Modelling conventions:
  * JS/AssemblyScript strings are modelled as lists of characters (Str);
  * graph-ts Bytes and Address values are modelled as lists of byte values;
  * decimal.js Decimal and graph-ts BigDecimal are modelled as exact rationals,
    BigInt as Int, i32 as Int;
  * the entity store (Entity.load / entity.save) is modelled as an association
    list keyed by the entity id string;
  * a call that can revert returns an Option; a runtime trap is modelled as none.
-/

namespace EtherConverter

/-- Strings are modelled as lists of characters. -/
abbrev Str := List Char

/-- Coerce a Lean string literal to the character-list model. -/
def str (s : String) : Str := s.data

/-- graph-ts Bytes (and Address, a 20-byte value) modelled as a list of bytes. -/
abbrev Bytes := List Nat

/-- Value of a single hex digit character (case-insensitive); 0 for non-hex. -/
def hexVal (c : Char) : Nat :=
  if c.isDigit then c.toNat - 48
  else if 97 ≤ c.toNat ∧ c.toNat ≤ 102 then c.toNat - 87
  else if 65 ≤ c.toNat ∧ c.toNat ≤ 70 then c.toNat - 55
  else 0

/-- Parse consecutive pairs of hex digits into bytes. -/
def hexPairs : List Char → List Nat
  | a :: b :: rest => (hexVal a * 16 + hexVal b) :: hexPairs rest
  | _ => []

/-- Model of Address.fromString / Bytes.fromHexString on a 0x-prefixed hex string. -/
def addrOfHex (s : String) : Bytes := hexPairs (s.data.drop 2)

/-- Lowercase hex digit character for a value below 16. -/
def hexChar (n : Nat) : Char :=
  if n < 10 then Char.ofNat (48 + n) else Char.ofNat (87 + n)

/-- Two lowercase hex digits of one byte. -/
def byteHex (n : Nat) : Str := [hexChar (n / 16 % 16), hexChar (n % 16)]

/-- Model of Bytes.toHexString / Address.toHexString: 0x-prefixed lowercase hex. -/
def toHexString (b : Bytes) : Str := str "0x" ++ (b.map byteHex).flatten

/-- Decimal string rendering of a BigInt / i32 value. -/
def intToStr (i : Int) : Str := (toString i).data

/-- The entity store: an association list from entity id to entity value.
Entity.load is storeGet, entity.save is storeSet (overwrite or append). -/
abbrev Store (α : Type) := List (Str × α)

def storeGet {α : Type} : Store α → Str → Option α
  | [], _ => none
  | (k, v) :: rest, key => if k = key then some v else storeGet rest key

def storeSet {α : Type} : Store α → Str → α → Store α
  | [], key, v => [(key, v)]
  | (k, w) :: rest, key, v =>
      if k = key then (k, v) :: rest else (k, w) :: storeSet rest key v

def storeGetD {α : Type} (m : Store α) (key : Str) (d : α) : α :=
  (storeGet m key).getD d

/-- A block header: number and timestamp. -/
structure BlockInfo where
  number : Int
  timestamp : Int
deriving DecidableEq

end EtherConverter

namespace EtherConverter.SwapScript

/- Offline correction script, scripts/swap-and-convert-with-manual-deposits.ts. -/

/-- Addresses (lowercase), as in the script. -/
def WETH : Str := str "0xee8c0e9f1bffb4eb878d8f15f368a02a35481242"

def WEETH : Str := str "0xa3d68b74bf0528fdd07263c60d6488749044914b"

def WSTETH : Str := str "0x10aeaf63194db8d453d4d85a06e5efe1dd0b5417"

def LP_TOKEN : Str :=
  str "0x5937e8aa8092eb2b18c40290a65d217e764bafaf2e6f5ddb594a692a9761b26f"

/-- CONVERSION_RATES table; rate strings are modelled by their exact rational
values. -/
def CONVERSION_RATES (t : Str) : Option ℚ :=
  if t = WEETH then some (1.0829400000000 : ℚ)
  else if t = WSTETH then some (1.2208745075197 : ℚ)
  else if t = WETH then some (1.00000 : ℚ)
  else none

def conversionRateForToken (tokenAfter : Str) : ℚ :=
  (CONVERSION_RATES tokenAfter).getD (1.00000 : ℚ)

/-- Lowercasing of a character list, modelling String.prototype.toLowerCase. -/
def toLowerStr (s : Str) : Str := s.map Char.toLower

/-- safeLower: lowercase a string value, empty string for a non-string input. -/
def safeLower : Option Str → Str
  | some s => toLowerStr s
  | none => []

structure SwapResult where
  tokenBefore : Str
  tokenAfter : Str
  swapped : Bool
deriving DecidableEq

/-- swapTokenDeterministic: the WETH/weETH address-swap correction. -/
def swapTokenDeterministic (tokenRaw : Option Str) : SwapResult :=
  let token := safeLower tokenRaw
  if token = [] then ⟨[], [], false⟩
  else if token = WETH then ⟨token, WEETH, true⟩
  else if token = WEETH then ⟨token, WETH, true⟩
  else ⟨token, token, false⟩

/-- One application of normalization to an identity (the tokenAfter output). -/
def normalizeStep (x : Str) : Str := (swapTokenDeterministic (some x)).tokenAfter

/-- n-fold application of normalization. -/
def applyN : Nat → Str → Str
  | 0, y => y
  | n + 1, y => applyN n (normalizeStep y)

/-- Integer-string fragment of decimal.js parsing: the raw amounts this pipeline
feeds to the Decimal constructor are big-integer digit strings; a malformed
string parses to none (the constructor throws and rawToBigDecimal returns null). -/
def parseDigits (s : Str) : Option Nat :=
  if s = [] then none
  else
    s.foldl
      (fun acc c =>
        match acc with
        | some n => if c.isDigit then some (n * 10 + (c.toNat - 48)) else none
        | none => none)
      (some 0)

/-- rawToBigDecimal: parse an optional raw-amount string to a Decimal. -/
def rawToBigDecimal : Option Str → Option ℚ
  | none => none
  | some raw =>
    match parseDigits raw with
    | none => none
    | some n => some (n : ℚ)

/-- computeAmountWETHFromRaw: rawBig * conversionRate / 10^18 (decimal.js
arithmetic modelled as exact rational arithmetic). -/
def computeAmountWETHFromRaw (amountRaw : Option Str) (conversionRate : Option ℚ) :
    Option ℚ :=
  match rawToBigDecimal amountRaw with
  | none => none
  | some rawBig =>
    let conv := conversionRate.getD 1
    some (rawBig * conv / (10 : ℚ) ^ 18)

/-- An input event row as fetched from the subgraph (all fields optional). -/
structure EventRow where
  id : Option Str
  provider : Option Str
  token : Option Str
  amountRaw : Option Str
  blockNumber : Option Str
  transactionHash : Option Str
deriving DecidableEq

/-- A corrected row as built in the processing loops of main. -/
structure CorrectedRow where
  original : EventRow
  tokenAfter : Str
  swapped : Bool
  amountWETHComputed : Option ℚ
  conversionRate : ℚ
deriving DecidableEq

/-- The body of the deposit/withdrawal processing loop: swap correction plus
rate conversion for one row. -/
def correctRow (r : EventRow) : CorrectedRow :=
  let sw := swapTokenDeterministic r.token
  let convRate := conversionRateForToken sw.tokenAfter
  ⟨r, sw.tokenAfter, sw.swapped,
    computeAmountWETHFromRaw r.amountRaw (some convRate), convRate⟩

def rowUser (r : CorrectedRow) : Str := safeLower r.original.provider

/-- Transaction key: lowercased hash, or the row id when the hash is absent. -/
def rowTx (r : CorrectedRow) : Str :=
  let t := safeLower r.original.transactionHash
  if t = [] then r.original.id.getD [] else t

def rowKey (r : CorrectedRow) : Str := rowUser r ++ ['|'] ++ rowTx r

/-- One iteration of computeTxAggregates: ensure the key is present, then add
the converted amount unless the row is LP-token denominated or unconverted. -/
def txAggStep (m : Store ℚ) (r : CorrectedRow) : Store ℚ :=
  let key := rowKey r
  let isLP := r.tokenAfter = LP_TOKEN
  let m1 := if (storeGet m key).isSome then m else storeSet m key 0
  match r.amountWETHComputed with
  | some v => if isLP then m1 else storeSet m1 key (storeGetD m1 key 0 + v)
  | none => m1

/-- computeTxAggregates over a list of corrected rows. -/
def computeTxAggregates (corrected : List CorrectedRow) : Store ℚ :=
  corrected.foldl txAggStep []

/-- Per-user running totals of the script (the userMap in main). -/
structure UserTotals where
  deposits : ℚ
  withdrawals : ℚ
deriving DecidableEq

/-- One iteration of the per-user aggregation loop over corrected deposits:
note there is no LP-token filter here. -/
def userDepositStep (um : Store UserTotals) (r : CorrectedRow) : Store UserTotals :=
  let user := rowUser r
  let v := r.amountWETHComputed.getD 0
  let cur := storeGetD um user ⟨0, 0⟩
  storeSet um user ⟨cur.deposits + v, cur.withdrawals⟩

/-- One iteration of the per-user aggregation loop over corrected withdrawals. -/
def userWithdrawStep (um : Store UserTotals) (r : CorrectedRow) : Store UserTotals :=
  let user := rowUser r
  let v := r.amountWETHComputed.getD 0
  let cur := storeGetD um user ⟨0, 0⟩
  storeSet um user ⟨cur.deposits, cur.withdrawals + v⟩

end EtherConverter.SwapScript

namespace EtherConverter

/- Shared subgraph entity types (generated/schema). -/

structure OracleRate where
  id : Str
  token : Bytes
  blockNumber : Int
  blockTimestamp : Int
  rateToETH : ℚ
  source : Str
deriving DecidableEq

structure User where
  totalDepositedWETH : ℚ
  totalWithdrawnWETH : ℚ
  netLossWETH : ℚ
  lastUpdatedBlock : Int
deriving DecidableEq

/-- Pool entity; the tokens array and its entries are nullable in the store. -/
structure Pool where
  id : Str
  lpToken : Bytes
  tokens : Option (List (Option Bytes))
  createdBlock : Int
deriving DecidableEq

/-- A Deposit or Withdrawal entity. -/
structure FlowRecord where
  id : Str
  provider : Bytes
  pool : Str
  token : Bytes
  tokenIndex : Int
  amountRaw : Int
  amountWETH : ℚ
  rateToETHId : Str
  blockNumber : Int
  blockTimestamp : Int
  transactionHash : Bytes
deriving DecidableEq

/-- The external on-chain capability: ERC20.decimals and CurveStableSwap.coins,
both of which may revert (none). -/
structure Env where
  decimals : Bytes → Option Int
  coins : Bytes → Nat → Option Bytes

/-- The mutable entity store of the subgraph. -/
structure State where
  pools : Store Pool
  oracles : Store OracleRate
  users : Store User
  deposits : Store FlowRecord
  withdrawals : Store FlowRecord
deriving DecidableEq

/-- model of Address.fromBytes: traps (none) unless the value is exactly 20
bytes wide. -/
def AddressFromBytes (b : Bytes) : Option Bytes :=
  if b.length = 20 then some b else none

end EtherConverter

namespace EtherConverter.Helpers

/- src/helpers.ts (source part_002): the helpers imported by the live mapping. -/

/-- Emergency recovery flag, set true in the source. -/
def FORCE_OVERWRITE : Bool := true

def POOL_ADDRESS : Bytes := addrOfHex "0x2fD13b49F970e8C6D89283056C1c6281214b7EB6"

def WETH_ADDRESS : Bytes := addrOfHex "0xEE8c0E9f1BFFb4Eb878d8f15f368A02a35481242"

def WEETH_ADDRESS : Bytes := addrOfHex "0xA3D68b74bF0528fdD07263c60d6488749044914b"

def WSTETH_ADDRESS : Bytes := addrOfHex "0x10Aeaf63194db8d453d4D85a06E5eFE1dd0b5417"

def ZERO_ADDRESS : Bytes := addrOfHex "0x0000000000000000000000000000000000000000"

/-- exponentToBigDecimal: bd = 1; for i in 0..<decimals, bd = bd * 10. -/
def exponentToBigDecimal (decimals : Int) : ℚ :=
  (List.range decimals.toNat).foldl (fun bd _ => bd * 10) 1

/-- toDecimal: amount.toBigDecimal().div(precision). -/
def toDecimal (amount : Int) (decimals : Int) : ℚ :=
  (amount : ℚ) / exponentToBigDecimal decimals

/-- makePerTokenId: short stable id, txHash prefix of 12 chars + logIndex +
tokenIndex. -/
def makePerTokenId (txHash : Str) (logIndex : Int) (tokenIndex : Int) : Str :=
  let pre := if txHash.length > 12 then txHash.take 12 else txHash
  pre ++ str "-" ++ intToStr logIndex ++ str "-" ++ intToStr tokenIndex

/-- fetchTokenDecimals: try_decimals with fallback 18 on revert. -/
def fetchTokenDecimals (env : Env) (tokenAddr : Bytes) : Int :=
  match env.decimals tokenAddr with
  | none => 18
  | some d => d

/-- getOrCreateOracleRate: load by (token, block) id; return unchanged when it
exists, otherwise create, save and return.  The
Bytes.fromHexString(tokenAddr.toHexString()) round trip is modelled as the
address bytes themselves (the null guard branch is unreachable for a valid
address). -/
def getOrCreateOracleRate (store : Store OracleRate) (tokenAddr : Bytes)
    (block : BlockInfo) (rateToETH : ℚ) (source : Str) :
    OracleRate × Store OracleRate :=
  let id := toHexString tokenAddr ++ str "-" ++ intToStr block.number
  match storeGet store id with
  | some existing => (existing, store)
  | none =>
    let r : OracleRate :=
      ⟨id, tokenAddr, block.number, block.timestamp, rateToETH, source⟩
    (r, storeSet store id r)

/-- updateUserAggregates (guarded version): only strictly positive amounts are
added; netLossWETH is recomputed as deposited minus withdrawn. -/
def updateUserAggregates (users : Store User) (userAddr : Str)
    (depositWETH withdrawWETH : ℚ) (blockNumber : Int) : Store User :=
  let u0 := storeGetD users userAddr ⟨0, 0, 0, 0⟩
  let u1 :=
    if depositWETH > 0 then
      { u0 with totalDepositedWETH := u0.totalDepositedWETH + depositWETH }
    else u0
  let u2 :=
    if withdrawWETH > 0 then
      { u1 with totalWithdrawnWETH := u1.totalWithdrawnWETH + withdrawWETH }
    else u1
  let u3 :=
    { u2 with
      netLossWETH := u2.totalDepositedWETH - u2.totalWithdrawnWETH,
      lastUpdatedBlock := blockNumber }
  storeSet users userAddr u3

/-- getTokenAddressFromPool (defensive version): total; the zero address is
returned for an absent pool, a missing tokens array, an out-of-range index, a
null entry, or an entry that is not 20 bytes wide. -/
def getTokenAddressFromPool (pool : Option Pool) (tokenIndex : Int) : Bytes :=
  match pool with
  | none => ZERO_ADDRESS
  | some p =>
    match p.tokens with
    | none => ZERO_ADDRESS
    | some tokens =>
      if tokenIndex < 0 ∨ tokenIndex ≥ (tokens.length : Int) then ZERO_ADDRESS
      else
        match tokens.getD tokenIndex.toNat none with
        | none => ZERO_ADDRESS
        | some b => if b.length ≠ 20 then ZERO_ADDRESS else b

/-- The probing loop of initPoolIfNeeded: try coins(i) from index i with the
given remaining probe budget, stopping at the first revert or zero address. -/
def discoverLoop (coins : Nat → Option Bytes) : Nat → Nat → List Bytes
  | _, 0 => []
  | i, fuel + 1 =>
    match coins i with
    | none => []
    | some coinAddr =>
      if coinAddr = ZERO_ADDRESS then []
      else coinAddr :: discoverLoop coins (i + 1) fuel

/-- Validation of an existing Pool against a freshly discovered token list:
invalid when the array is missing, the lengths mismatch, or any entry is null
or not 20 bytes wide. -/
def poolTokensInvalid (existing : Pool) (tokenBytes : List Bytes) : Bool :=
  match existing.tokens with
  | none => true
  | some ts =>
    if ts.length ≠ tokenBytes.length then true
    else
      ts.any (fun e =>
        match e with
        | none => true
        | some eb => eb.length ≠ 20)

/-- initPoolIfNeeded: probe coins(i) for i = 0..maxIndex-1, keep the discovered
addresses that validate as 20-byte values, and persist the Pool (wholesale)
when the overwrite policy applies.  The source declares maxIndex with default
value 8; every call site uses the default.  The
Bytes.fromHexString(addr.toHexString()) round trips are modelled as the bytes
themselves. -/
def initPoolIfNeeded (env : Env) (state : State) (poolAddr : Bytes)
    (block : BlockInfo) (maxIndex : Nat) : State :=
  let poolId := toHexString poolAddr
  let existing := storeGet state.pools poolId
  let discovered := discoverLoop (env.coins poolAddr) 0 maxIndex
  let tokenBytes := discovered.filter (fun b => b.length = 20)
  if tokenBytes.length = 0 then state
  else
    let shouldWrite :=
      if FORCE_OVERWRITE then true
      else
        match existing with
        | none => true
        | some ex => poolTokensInvalid ex tokenBytes
    if shouldWrite then
      let p : Pool := ⟨poolId, poolAddr, some (tokenBytes.map some), block.number⟩
      { state with pools := storeSet state.pools poolId p }
    else state

end EtherConverter.Helpers

namespace EtherConverter.MappingHelpers

/- src/mapping/helpers.ts (source part_001): the older helper variant. -/

/-- makePerTokenId in this variant concatenates the full transaction hash
(no 12-character truncation). -/
def makePerTokenId (txHash : Str) (logIndex : Int) (tokenIndex : Int) : Str :=
  txHash ++ str "-" ++ intToStr logIndex ++ str "-" ++ intToStr tokenIndex

/-- getOrCreateOracleRate of the older variant (same load/create semantics). -/
def getOrCreateOracleRate (store : Store OracleRate) (token : Bytes)
    (block : BlockInfo) (rate : ℚ) (source : Str) :
    OracleRate × Store OracleRate :=
  let id := toHexString token ++ str "-" ++ intToStr block.number
  match storeGet store id with
  | some r => (r, store)
  | none =>
    let r : OracleRate := ⟨id, token, block.number, block.timestamp, rate, source⟩
    (r, storeSet store id r)

/-- updateUserAggregates of the older variant: both amounts are added
unconditionally and netLossWETH is recomputed as withdrawn minus deposited
(matching the inline comment in the source). -/
def updateUserAggregates (users : Store User) (userId : Str)
    (depositWETH withdrawWETH : ℚ) (blockNumber : Int) : Store User :=
  let u0 := storeGetD users userId ⟨0, 0, 0, 0⟩
  let u1 := { u0 with totalDepositedWETH := u0.totalDepositedWETH + depositWETH }
  let u2 := { u1 with totalWithdrawnWETH := u1.totalWithdrawnWETH + withdrawWETH }
  let u3 :=
    { u2 with
      netLossWETH := u2.totalWithdrawnWETH - u2.totalDepositedWETH,
      lastUpdatedBlock := blockNumber }
  storeSet users userId u3

/-- getTokenAddressFromPool of the older variant: guards the pool, the tokens
array and the bounds, but casts the element and calls Address.fromBytes without
checking for a null entry or a 20-byte width; the resulting runtime trap is
modelled as none. -/
def getTokenAddressFromPool (pool : Option Pool) (index : Int) : Option Bytes :=
  match pool with
  | none => some Helpers.ZERO_ADDRESS
  | some p =>
    match p.tokens with
    | none => some Helpers.ZERO_ADDRESS
    | some tokens =>
      if index < 0 ∨ index ≥ (tokens.length : Int) then some Helpers.ZERO_ADDRESS
      else
        match tokens.getD index.toNat none with
        | none => none
        | some b => AddressFromBytes b

end EtherConverter.MappingHelpers

namespace EtherConverter.CurveMapping

/- src/mapping/curve-stable-swap.ts (first version): the live event handlers,
importing the Helpers namespace (src/helpers.ts). -/

open EtherConverter.Helpers

/-- fetchRedemptionRate: fixed rate table with default 1. -/
def fetchRedemptionRate (tokenAddr : Bytes) (_block : BlockInfo) : ℚ :=
  if tokenAddr = WETH_ADDRESS then 1
  else if tokenAddr = WEETH_ADDRESS then (1.0829400000000 : ℚ)
  else if tokenAddr = WSTETH_ADDRESS then (1.2208745075197 : ℚ)
  else 1

/-- Token resolution of a handler row: Pool.tokens lookup with the positional
fallback mapping when the helper returned the zero address. -/
def resolveTokenAddr (pool : Option Pool) (tokenIndex : Int) : Bytes :=
  let tokenAddr := getTokenAddressFromPool pool tokenIndex
  if tokenAddr = ZERO_ADDRESS then
    if tokenIndex = 0 then WEETH_ADDRESS
    else if tokenIndex = 1 then WSTETH_ADDRESS
    else if tokenIndex = 2 then WETH_ADDRESS
    else tokenAddr
  else tokenAddr

/-- One iteration of the handleAddLiquidity per-token loop: skip a zero amount,
otherwise resolve the token, convert, persist the oracle rate and the Deposit,
and update the user aggregates. -/
def addLiquidityRowStep (env : Env) (state : State) (pool : Option Pool)
    (hash : Bytes) (logIndex : Int) (provider : Bytes) (block : BlockInfo)
    (tokenIndex : Int) (amountRaw : Int) : State :=
  if amountRaw = 0 then state
  else
    let txHash := toHexString hash
    let providerStr := toHexString provider
    let tokenAddr := resolveTokenAddr pool tokenIndex
    let decimals := fetchTokenDecimals env tokenAddr
    let amountDecimal := toDecimal amountRaw decimals
    let rate := fetchRedemptionRate tokenAddr block
    let oracleRes :=
      getOrCreateOracleRate state.oracles tokenAddr block rate (str "wrapper-call")
    let oracle := oracleRes.1
    let amountWETH := amountDecimal * oracle.rateToETH
    let id := makePerTokenId txHash logIndex tokenIndex
    let d : FlowRecord :=
      ⟨id, provider, toHexString POOL_ADDRESS, tokenAddr, tokenIndex, amountRaw,
        amountWETH, oracle.id, block.number, block.timestamp, hash⟩
    { state with
      oracles := oracleRes.2,
      deposits := storeSet state.deposits id d,
      users := updateUserAggregates state.users providerStr amountWETH 0 block.number }

/-- The RemoveLiquidityOne event payload. -/
structure RemoveLiquidityOneEvent where
  provider : Bytes
  token_id : Int
  token_amount : Int
  logIndex : Int
  hash : Bytes
  block : BlockInfo
deriving DecidableEq

/-- Body of handleRemoveLiquidityOne after the Pool has been loaded: skip a
zero amount, otherwise resolve, convert, persist the Withdrawal and update the
user aggregates. -/
def handleRemoveLiquidityOneLoaded (env : Env) (state : State) (pool : Pool)
    (ev : RemoveLiquidityOneEvent) : State :=
  let tokenIndex := ev.token_id
  let amountRaw := ev.token_amount
  if amountRaw = 0 then state
  else
    let txHash := toHexString ev.hash
    let providerStr := toHexString ev.provider
    let block := ev.block
    let tokenAddr := resolveTokenAddr (some pool) tokenIndex
    let decimals := fetchTokenDecimals env tokenAddr
    let amountDecimal := toDecimal amountRaw decimals
    let rate := fetchRedemptionRate tokenAddr block
    let oracleRes :=
      getOrCreateOracleRate state.oracles tokenAddr block rate (str "wrapper-call")
    let oracle := oracleRes.1
    let amountWETH := amountDecimal * oracle.rateToETH
    let id := makePerTokenId txHash ev.logIndex tokenIndex
    let w : FlowRecord :=
      ⟨id, ev.provider, toHexString POOL_ADDRESS, tokenAddr, tokenIndex, amountRaw,
        amountWETH, oracle.id, block.number, block.timestamp, ev.hash⟩
    { state with
      oracles := oracleRes.2,
      withdrawals := storeSet state.withdrawals id w,
      users := updateUserAggregates state.users providerStr 0 amountWETH block.number }

/-- handleRemoveLiquidityOne: init the pool, load it (with one retry through
initPoolIfNeeded, aborting the event when it is still missing), then process
the single row. -/
def handleRemoveLiquidityOne (env : Env) (state : State)
    (ev : RemoveLiquidityOneEvent) : State :=
  let state1 := initPoolIfNeeded env state POOL_ADDRESS ev.block 8
  let poolId := toHexString POOL_ADDRESS
  match storeGet state1.pools poolId with
  | some p => handleRemoveLiquidityOneLoaded env state1 p ev
  | none =>
    let state2 := initPoolIfNeeded env state1 POOL_ADDRESS ev.block 8
    match storeGet state2.pools poolId with
    | some p => handleRemoveLiquidityOneLoaded env state2 p ev
    | none => state2

end EtherConverter.CurveMapping

namespace EtherConverter

/- Auxiliary definitions used by the theorems below. -/

/-- Spec-side predicate: a probe result is usable when the call succeeded and
did not return the zero-address sentinel. -/
def probeOk : Option Bytes → Bool
  | none => false
  | some c => decide (c ≠ Helpers.ZERO_ADDRESS)

/-- The identity delivered by a usable probe result. -/
def probeVal : Option Bytes → Bytes
  | none => []
  | some c => c

/-- The (token, block) key of an OracleRate record. -/
def oracleId (tokenAddr : Bytes) (block : BlockInfo) : Str :=
  toHexString tokenAddr ++ str "-" ++ intToStr block.number

/-- The OracleRate record freshly created by getOrCreateOracleRate. -/
def newOracleRate (tokenAddr : Bytes) (block : BlockInfo) (rate : ℚ)
    (source : Str) : OracleRate :=
  ⟨oracleId tokenAddr block, tokenAddr, block.number, block.timestamp, rate, source⟩

/-- A concrete corrected row whose resolved token is the LP token. -/
def lpRowC1 : SwapScript.CorrectedRow :=
  SwapScript.correctRow
    ⟨some (str "lp-1"), some (str "0xaaa"), some SwapScript.LP_TOKEN,
      some (str "5"), some (str "1"), some (str "0xbbb")⟩

/-- A concrete environment: coins(0) and coins(1) valid, coins(2) reverts. -/
def cexEnv : Env :=
  ⟨fun _ => none,
   fun _ i =>
     if i = 0 then some Helpers.WETH_ADDRESS
     else if i = 1 then some Helpers.WSTETH_ADDRESS
     else none⟩

/-- The empty entity store state. -/
def emptyState : State := ⟨[], [], [], [], []⟩

end EtherConverter

namespace EtherConverter

/- Generic store lemmas. -/

theorem storeGet_set_self {α : Type} (m : Store α) (k : Str) (v : α) :
    storeGet (storeSet m k v) k = some v := by
  induction m with
  | nil => simp [storeSet, storeGet]
  | cons hd tl ih =>
    obtain ⟨k0, w⟩ := hd
    by_cases h : k0 = k
    · simp [storeSet, storeGet, h]
    · simp [storeSet, storeGet, h, ih]

theorem storeGet_set_ne {α : Type} (m : Store α) (k kk : Str) (v : α)
    (h : kk ≠ k) : storeGet (storeSet m k v) kk = storeGet m kk := by
  induction m with
  | nil =>
    simp only [storeSet, storeGet]
    rw [if_neg fun hh => h hh.symm]
  | cons hd tl ih =>
    obtain ⟨k0, w⟩ := hd
    by_cases h0 : k0 = k
    · subst h0
      have hkk : ¬(k0 = kk) := fun hh => h hh.symm
      simp [storeSet, storeGet, hkk]
    · simp only [storeSet, if_neg h0, storeGet]
      by_cases h1 : k0 = kk
      · simp [h1]
      · simp [h1, ih]

theorem storeGetD_set_self {α : Type} (m : Store α) (k : Str) (v d : α) :
    storeGetD (storeSet m k v) k d = v := by
  simp [storeGetD, storeGet_set_self]

theorem storeGetD_set_ne {α : Type} (m : Store α) (k kk : Str) (v d : α)
    (h : kk ≠ k) : storeGetD (storeSet m k v) kk d = storeGetD m kk d := by
  simp [storeGetD, storeGet_set_ne m k kk v h]

/- Conversion lemmas. -/

theorem foldl_mul_ten (n : Nat) :
    (List.range n).foldl (fun bd _ => bd * 10) (1 : ℚ) = 10 ^ n := by
  induction n with
  | zero => simp
  | succ n ih =>
    rw [List.range_succ, List.foldl_append, ih]
    simp [pow_succ]

theorem exponentToBigDecimal_eq (d : Nat) :
    Helpers.exponentToBigDecimal (d : Int) = 10 ^ d := by
  unfold Helpers.exponentToBigDecimal
  rw [Int.toNat_ofNat]
  exact foldl_mul_ten d

/-- C2: the conversion from a raw integer amount to a canonical amount equals
rawAmount / 10^decimals * rate in exact (rational) arithmetic, for every raw
amount, every decimals >= 0 and every rate; the chosen decimals value is the
divisor exponent of the subgraph conversion (toDecimal), and the offline
script's computeAmountWETHFromRaw is its decimals = 18 instance. -/
theorem C2_exact_decimal_conversion :
    (∀ (amount : Int) (d : Nat) (rate : ℚ),
        Helpers.toDecimal amount (d : Int) * rate = (amount : ℚ) / 10 ^ d * rate)
    ∧ (∀ (s : Str) (n : Nat) (rate : ℚ), SwapScript.parseDigits s = some n →
        SwapScript.computeAmountWETHFromRaw (some s) (some rate)
          = some ((n : ℚ) / 10 ^ 18 * rate)) := by
  constructor
  · intro a d rate
    unfold Helpers.toDecimal
    rw [exponentToBigDecimal_eq]
  · intro s n rate h
    simp only [SwapScript.computeAmountWETHFromRaw, SwapScript.rawToBigDecimal, h,
      Option.getD_some, Option.some.injEq]
    ring

/-- Witness for C2: scenario A of the spec, raw amount 4993670000000000000 at
rate 1 converts to 4993670000000000000 / 10^18. -/
theorem C2_witness :
    SwapScript.computeAmountWETHFromRaw (some (str "4993670000000000000")) (some 1)
      = some ((4993670000000000000 : ℚ) / 10 ^ 18 * 1) := by
  have h := C2_exact_decimal_conversion.2 (str "4993670000000000000")
    4993670000000000000 1 (by decide)
  simpa using h

/-- C3: swap-normalization sends WETH to weETH and weETH to WETH with
swapped = true, twice applied it restores either of the pair, and on any other
(lowercase) identity it is the identity function with swapped = false no matter
how often it is applied. -/
theorem C3_swap_normalization_involution :
    SwapScript.swapTokenDeterministic (some SwapScript.WETH)
        = ⟨SwapScript.WETH, SwapScript.WEETH, true⟩
    ∧ SwapScript.swapTokenDeterministic (some SwapScript.WEETH)
        = ⟨SwapScript.WEETH, SwapScript.WETH, true⟩
    ∧ SwapScript.normalizeStep (SwapScript.normalizeStep SwapScript.WETH)
        = SwapScript.WETH
    ∧ SwapScript.normalizeStep (SwapScript.normalizeStep SwapScript.WEETH)
        = SwapScript.WEETH
    ∧ ∀ y : Str, SwapScript.toLowerStr y = y →
        y ≠ SwapScript.WETH → y ≠ SwapScript.WEETH →
        SwapScript.swapTokenDeterministic (some y) = ⟨y, y, false⟩
        ∧ ∀ n, SwapScript.applyN n y = y := by
  refine ⟨by decide, by decide, by decide, by decide, ?_⟩
  intro y hlow hw hww
  have hswap : SwapScript.swapTokenDeterministic (some y) = ⟨y, y, false⟩ := by
    simp only [SwapScript.swapTokenDeterministic, SwapScript.safeLower, hlow]
    by_cases hy : y = []
    · subst hy; rfl
    · rw [if_neg hy, if_neg hw, if_neg hww]
  refine ⟨hswap, ?_⟩
  intro n
  induction n with
  | zero => rfl
  | succ n ih =>
    show SwapScript.applyN n (SwapScript.normalizeStep y) = y
    rw [SwapScript.normalizeStep, hswap]
    exact ih

/-- Witness for C3: wstETH is untouched by normalization, however often it is
applied. -/
theorem C3_witness :
    SwapScript.swapTokenDeterministic (some SwapScript.WSTETH)
        = ⟨SwapScript.WSTETH, SwapScript.WSTETH, false⟩
    ∧ SwapScript.applyN 3 SwapScript.WSTETH = SwapScript.WSTETH := by
  have h := C3_swap_normalization_involution.2.2.2.2 SwapScript.WSTETH
    (by decide) (by decide) (by decide)
  exact ⟨h.1, h.2 3⟩

/-- C5 counterexample: the src/mapping/helpers.ts variant of makePerTokenId
keeps the full 66-character transaction hash instead of its first 12
characters. -/
theorem C5_counterexample :
    MappingHelpers.makePerTokenId
        (str "0x48d878e4b6669c34ef333d84e9d714d3db06047e3eeefe89ba7614237a70d2df") 12 0
      ≠ (str "0x48d878e4b6669c34ef333d84e9d714d3db06047e3eeefe89ba7614237a70d2df").take 12
          ++ str "-" ++ intToStr 12 ++ str "-" ++ intToStr 0 := by decide

/-- C5 amended: the live materializer (src/helpers.ts) builds the id from the
first 12 characters of the transaction hash, the log index and the token
index; the src/mapping/helpers.ts variant concatenates the full hash instead. -/
theorem C5_flow_record_id (txHash : Str) (logIndex tokenIndex : Int) :
    Helpers.makePerTokenId txHash logIndex tokenIndex
      = txHash.take 12 ++ str "-" ++ intToStr logIndex ++ str "-" ++ intToStr tokenIndex
    ∧ MappingHelpers.makePerTokenId txHash logIndex tokenIndex
      = txHash ++ str "-" ++ intToStr logIndex ++ str "-" ++ intToStr tokenIndex := by
  constructor
  · unfold Helpers.makePerTokenId
    by_cases h : txHash.length > 12
    · rw [if_pos h]
    · rw [if_neg h, List.take_of_length_le (Nat.le_of_not_lt h)]
  · rfl

end EtherConverter

namespace EtherConverter

/-- C4 counterexample: after a deposit of 1 through the src/mapping/helpers.ts
variant, the stored netLossWETH field is the negation of
totalDeposited - totalWithdrawn. -/
theorem C4_counterexample :
    (storeGetD (MappingHelpers.updateUserAggregates [] (str "0xu") 1 0 5)
        (str "0xu") ⟨0, 0, 0, 0⟩).netLossWETH
      ≠ (storeGetD (MappingHelpers.updateUserAggregates [] (str "0xu") 1 0 5)
            (str "0xu") ⟨0, 0, 0, 0⟩).totalDepositedWETH
        - (storeGetD (MappingHelpers.updateUserAggregates [] (str "0xu") 1 0 5)
            (str "0xu") ⟨0, 0, 0, 0⟩).totalWithdrawnWETH := by
  have h : storeGetD (MappingHelpers.updateUserAggregates [] (str "0xu") 1 0 5)
      (str "0xu") ⟨0, 0, 0, 0⟩ = ⟨0 + 1, 0 + 0, (0 + 0) - (0 + 1), 5⟩ := rfl
  rw [h]
  show (0 + 0 : ℚ) - (0 + 1) ≠ (0 + 1) - (0 + 0)
  norm_num

/-- C4 amended: after every update, src/helpers.ts stores
netLossWETH = totalDeposited - totalWithdrawn, recomputed from the two totals;
the src/mapping/helpers.ts variant recomputes the same field as
totalWithdrawn - totalDeposited (the negation), matching its own inline
comment. -/
theorem C4_net_recomputed (users : Store User) (u : Str) (d w : ℚ) (b : Int) :
    (storeGetD (Helpers.updateUserAggregates users u d w b) u ⟨0, 0, 0, 0⟩).netLossWETH
      = (storeGetD (Helpers.updateUserAggregates users u d w b) u ⟨0, 0, 0, 0⟩).totalDepositedWETH
        - (storeGetD (Helpers.updateUserAggregates users u d w b) u ⟨0, 0, 0, 0⟩).totalWithdrawnWETH
    ∧ (storeGetD (MappingHelpers.updateUserAggregates users u d w b) u ⟨0, 0, 0, 0⟩).netLossWETH
      = (storeGetD (MappingHelpers.updateUserAggregates users u d w b) u ⟨0, 0, 0, 0⟩).totalWithdrawnWETH
        - (storeGetD (MappingHelpers.updateUserAggregates users u d w b) u ⟨0, 0, 0, 0⟩).totalDepositedWETH := by
  constructor
  · unfold Helpers.updateUserAggregates
    rw [storeGetD_set_self]
  · unfold MappingHelpers.updateUserAggregates
    rw [storeGetD_set_self]

/-- C9 counterexample: the src/mapping/helpers.ts variant adds its arguments
unconditionally, so a call with deposit amount -1 decreases totalDeposited
below its previous value 0. -/
theorem C9_counterexample :
    (storeGetD (MappingHelpers.updateUserAggregates [] (str "0xu") (-1) 0 5)
        (str "0xu") ⟨0, 0, 0, 0⟩).totalDepositedWETH
      < (storeGetD ([] : Store User) (str "0xu") ⟨0, 0, 0, 0⟩).totalDepositedWETH := by
  have h : storeGetD (MappingHelpers.updateUserAggregates [] (str "0xu") (-1) 0 5)
      (str "0xu") ⟨0, 0, 0, 0⟩ = ⟨0 + (-1), 0 + 0, (0 + 0) - (0 + (-1)), 5⟩ := rfl
  rw [h]
  show (0 : ℚ) + (-1) < 0
  norm_num

/-- C9 amended: the guarded update of src/helpers.ts never decreases either
total for any inputs; the src/mapping/helpers.ts variant never decreases
either total when called with nonnegative amounts, which all call sites pass. -/
theorem C9_totals_monotone (users : Store User) (u : Str) (d w : ℚ) (b : Int) :
    ((storeGetD users u ⟨0, 0, 0, 0⟩).totalDepositedWETH
        ≤ (storeGetD (Helpers.updateUserAggregates users u d w b) u ⟨0, 0, 0, 0⟩).totalDepositedWETH
      ∧ (storeGetD users u ⟨0, 0, 0, 0⟩).totalWithdrawnWETH
        ≤ (storeGetD (Helpers.updateUserAggregates users u d w b) u ⟨0, 0, 0, 0⟩).totalWithdrawnWETH)
    ∧ (0 ≤ d → 0 ≤ w →
        (storeGetD users u ⟨0, 0, 0, 0⟩).totalDepositedWETH
          ≤ (storeGetD (MappingHelpers.updateUserAggregates users u d w b) u ⟨0, 0, 0, 0⟩).totalDepositedWETH
        ∧ (storeGetD users u ⟨0, 0, 0, 0⟩).totalWithdrawnWETH
          ≤ (storeGetD (MappingHelpers.updateUserAggregates users u d w b) u ⟨0, 0, 0, 0⟩).totalWithdrawnWETH) := by
  constructor
  · unfold Helpers.updateUserAggregates
    rw [storeGetD_set_self]
    constructor
    · by_cases hd : d > 0 <;> by_cases hw : w > 0 <;> simp [hd, hw] <;> linarith
    · by_cases hd : d > 0 <;> by_cases hw : w > 0 <;> simp [hd, hw] <;> linarith
  · intro hd hw
    unfold MappingHelpers.updateUserAggregates
    rw [storeGetD_set_self]
    constructor <;> simp <;> linarith

/-- Witness for C9: a call of the src/mapping/helpers.ts variant with
nonnegative amounts 1 and 2 does not decrease totalDeposited. -/
theorem C9_witness :
    (storeGetD ([] : Store User) (str "0xw") ⟨0, 0, 0, 0⟩).totalDepositedWETH
      ≤ (storeGetD (MappingHelpers.updateUserAggregates [] (str "0xw") 1 2 7)
          (str "0xw") ⟨0, 0, 0, 0⟩).totalDepositedWETH :=
  ((C9_totals_monotone [] (str "0xw") 1 2 7).2 (by norm_num) (by norm_num)).1

/-- C10 counterexample: the src/mapping/helpers.ts lookup traps (modelled as
none) instead of returning the zero-address sentinel when the stored entry at
a valid index is a 1-byte value. -/
theorem C10_counterexample :
    MappingHelpers.getTokenAddressFromPool
        (some ⟨str "0xpool", Helpers.ZERO_ADDRESS, some [some [1]], 0⟩) 0 = none := by
  decide

/-- C10 amended: the src/helpers.ts lookup is total, returning the zero-address
sentinel for an absent pool, a missing token list, an out-of-range index, a
null entry, or an entry that is not 20 bytes wide; the src/mapping/helpers.ts
variant covers the first three cases but traps on a null or non-20-byte entry
at a valid index. -/
theorem C10_token_lookup_total (pool : Option Pool) (idx : Int) :
    (pool = none →
        Helpers.getTokenAddressFromPool pool idx = Helpers.ZERO_ADDRESS
        ∧ MappingHelpers.getTokenAddressFromPool pool idx = some Helpers.ZERO_ADDRESS)
    ∧ (∀ p, pool = some p → p.tokens = none →
        Helpers.getTokenAddressFromPool pool idx = Helpers.ZERO_ADDRESS
        ∧ MappingHelpers.getTokenAddressFromPool pool idx = some Helpers.ZERO_ADDRESS)
    ∧ (∀ p ts, pool = some p → p.tokens = some ts →
        (idx < 0 ∨ idx ≥ (ts.length : Int)) →
        Helpers.getTokenAddressFromPool pool idx = Helpers.ZERO_ADDRESS
        ∧ MappingHelpers.getTokenAddressFromPool pool idx = some Helpers.ZERO_ADDRESS)
    ∧ (∀ p ts, pool = some p → p.tokens = some ts →
        ¬(idx < 0 ∨ idx ≥ (ts.length : Int)) →
        (ts.getD idx.toNat none = none →
            Helpers.getTokenAddressFromPool pool idx = Helpers.ZERO_ADDRESS
            ∧ MappingHelpers.getTokenAddressFromPool pool idx = none)
        ∧ (∀ bv, ts.getD idx.toNat none = some bv → bv.length ≠ 20 →
            Helpers.getTokenAddressFromPool pool idx = Helpers.ZERO_ADDRESS
            ∧ MappingHelpers.getTokenAddressFromPool pool idx = none)
        ∧ (∀ bv, ts.getD idx.toNat none = some bv → bv.length = 20 →
            Helpers.getTokenAddressFromPool pool idx = bv
            ∧ MappingHelpers.getTokenAddressFromPool pool idx = some bv)) := by
  refine ⟨?_, ?_, ?_, ?_⟩
  · intro h
    subst h
    exact ⟨rfl, rfl⟩
  · intro p hp ht
    subst hp
    simp [Helpers.getTokenAddressFromPool, MappingHelpers.getTokenAddressFromPool, ht]
  · intro p ts hp ht hrange
    subst hp
    simp [Helpers.getTokenAddressFromPool, MappingHelpers.getTokenAddressFromPool,
      ht, hrange]
  · intro p ts hp ht hrange
    subst hp
    refine ⟨?_, ?_, ?_⟩
    · intro he
      simp only [List.getD, List.get?_eq_getElem?] at he
      simp [Helpers.getTokenAddressFromPool, MappingHelpers.getTokenAddressFromPool,
        ht, hrange, he]
    · intro bv he hlen
      simp only [List.getD, List.get?_eq_getElem?] at he
      simp [Helpers.getTokenAddressFromPool, MappingHelpers.getTokenAddressFromPool,
        AddressFromBytes, ht, hrange, he, hlen]
    · intro bv he hlen
      simp only [List.getD, List.get?_eq_getElem?] at he
      simp [Helpers.getTokenAddressFromPool, MappingHelpers.getTokenAddressFromPool,
        AddressFromBytes, ht, hrange, he, hlen]

/-- Witness for C10: both lookups yield the zero address for an absent pool. -/
theorem C10_witness :
    Helpers.getTokenAddressFromPool none 3 = Helpers.ZERO_ADDRESS
    ∧ MappingHelpers.getTokenAddressFromPool none 3 = some Helpers.ZERO_ADDRESS :=
  (C10_token_lookup_total none 3).1 rfl

/-- C6: both getOrCreateOracleRate versions return an existing record for the
exact (token, block) key unchanged, leaving the store untouched for any rate
and source arguments; otherwise they create, persist and return the new
record, and a repeated call then returns that record without further change. -/
theorem C6_oracle_rate_idempotent (store : Store OracleRate) (tokenAddr : Bytes)
    (block : BlockInfo) (rate : ℚ) (source : Str) :
    (∀ e, storeGet store (oracleId tokenAddr block) = some e →
        Helpers.getOrCreateOracleRate store tokenAddr block rate source = (e, store)
        ∧ MappingHelpers.getOrCreateOracleRate store tokenAddr block rate source = (e, store))
    ∧ (storeGet store (oracleId tokenAddr block) = none →
        Helpers.getOrCreateOracleRate store tokenAddr block rate source
          = (newOracleRate tokenAddr block rate source,
              storeSet store (oracleId tokenAddr block)
                (newOracleRate tokenAddr block rate source))
        ∧ MappingHelpers.getOrCreateOracleRate store tokenAddr block rate source
          = (newOracleRate tokenAddr block rate source,
              storeSet store (oracleId tokenAddr block)
                (newOracleRate tokenAddr block rate source))
        ∧ ∀ (rate2 : ℚ) (source2 : Str),
            Helpers.getOrCreateOracleRate
                (storeSet store (oracleId tokenAddr block)
                  (newOracleRate tokenAddr block rate source))
                tokenAddr block rate2 source2
              = (newOracleRate tokenAddr block rate source,
                  storeSet store (oracleId tokenAddr block)
                    (newOracleRate tokenAddr block rate source))) := by
  constructor
  · intro e he
    constructor
    · simp [Helpers.getOrCreateOracleRate, oracleId] at he ⊢
      rw [he]
    · simp [MappingHelpers.getOrCreateOracleRate, oracleId] at he ⊢
      rw [he]
  · intro he
    refine ⟨?_, ?_, ?_⟩
    · simp [Helpers.getOrCreateOracleRate, oracleId, newOracleRate] at he ⊢
      rw [he]
    · simp [MappingHelpers.getOrCreateOracleRate, oracleId, newOracleRate] at he ⊢
      rw [he]
    · intro rate2 source2
      simp only [Helpers.getOrCreateOracleRate]
      rw [show toHexString tokenAddr ++ str "-" ++ intToStr block.number
            = oracleId tokenAddr block from rfl]
      rw [storeGet_set_self]

/-- Witness for C6: creating a rate record in the empty store persists and
returns the new record. -/
theorem C6_witness :
    Helpers.getOrCreateOracleRate [] Helpers.WETH_ADDRESS ⟨5, 99⟩ 1 (str "wrapper-call")
      = (newOracleRate Helpers.WETH_ADDRESS ⟨5, 99⟩ 1 (str "wrapper-call"),
          storeSet [] (oracleId Helpers.WETH_ADDRESS ⟨5, 99⟩)
            (newOracleRate Helpers.WETH_ADDRESS ⟨5, 99⟩ 1 (str "wrapper-call"))) :=
  ((C6_oracle_rate_idempotent [] Helpers.WETH_ADDRESS ⟨5, 99⟩ 1 (str "wrapper-call")).2
    rfl).1

end EtherConverter

namespace EtherConverter

/-- C1 counterexample: a row whose resolved token is the LP token and whose
raw amount is nonzero changes the per-user aggregate (the per-user loop of the
script has no LP filter), so the aggregate is not identical before and after
processing the row. -/
theorem C1_counterexample :
    lpRowC1.tokenAfter = SwapScript.LP_TOKEN
    ∧ storeGetD (SwapScript.userDepositStep [] lpRowC1)
          (SwapScript.rowUser lpRowC1) ⟨0, 0⟩
      ≠ storeGetD ([] : Store SwapScript.UserTotals)
          (SwapScript.rowUser lpRowC1) ⟨0, 0⟩ := by
  refine ⟨by decide, ?_⟩
  intro heq
  have h1 : storeGetD (SwapScript.userDepositStep [] lpRowC1)
      (SwapScript.rowUser lpRowC1) ⟨0, 0⟩
      = ⟨0 + 5 * (1.00000 : ℚ) / 10 ^ 18, 0⟩ := rfl
  have h2 : storeGetD ([] : Store SwapScript.UserTotals)
      (SwapScript.rowUser lpRowC1) ⟨0, 0⟩ = (⟨0, 0⟩ : SwapScript.UserTotals) := rfl
  rw [h1, h2] at heq
  have h3 := congrArg SwapScript.UserTotals.deposits heq
  norm_num at h3

/-- C1 amended: a row whose resolved token equals the LP token leaves every
per-(user, transaction) running total unchanged (computeTxAggregates filters
LP rows), but the per-user aggregation loop adds the converted amount of every
row, LP rows included. -/
theorem C1_lp_rows_and_aggregates (m : Store ℚ) (r : SwapScript.CorrectedRow)
    (hLP : r.tokenAfter = SwapScript.LP_TOKEN) :
    (∀ key, storeGetD (SwapScript.txAggStep m r) key 0 = storeGetD m key 0)
    ∧ ∀ (um : Store SwapScript.UserTotals) (v : ℚ), r.amountWETHComputed = some v →
        (storeGetD (SwapScript.userDepositStep um r) (SwapScript.rowUser r)
            ⟨0, 0⟩).deposits
          = (storeGetD um (SwapScript.rowUser r) ⟨0, 0⟩).deposits + v := by
  constructor
  · intro key
    have hstep : SwapScript.txAggStep m r
        = if (storeGet m (SwapScript.rowKey r)).isSome then m
          else storeSet m (SwapScript.rowKey r) 0 := by
      cases hv : r.amountWETHComputed with
      | none => simp [SwapScript.txAggStep, SwapScript.rowKey, hv]
      | some v => simp [SwapScript.txAggStep, SwapScript.rowKey, hv, hLP]
    rw [hstep]
    by_cases hs : (storeGet m (SwapScript.rowKey r)).isSome
    · rw [if_pos hs]
    · rw [if_neg hs]
      by_cases hk : key = SwapScript.rowKey r
      · subst hk
        rw [storeGetD_set_self]
        have hnone : storeGet m (SwapScript.rowKey r) = none :=
          Option.not_isSome_iff_eq_none.mp hs
        simp [storeGetD, hnone]
      · rw [storeGetD_set_ne _ _ _ _ _ hk]
  · intro um v hv
    simp only [SwapScript.userDepositStep, SwapScript.rowUser]
    rw [storeGetD_set_self]
    simp [hv]

/-- Witness for C1: processing the concrete LP row leaves a concrete
per-transaction aggregate unchanged and adds its converted amount to the
per-user deposits total. -/
theorem C1_witness :
    storeGetD (SwapScript.txAggStep [(str "k", (3 : ℚ))] lpRowC1) (str "k") 0
      = storeGetD [(str "k", (3 : ℚ))] (str "k") 0
    ∧ (storeGetD (SwapScript.userDepositStep [] lpRowC1)
          (SwapScript.rowUser lpRowC1) ⟨0, 0⟩).deposits
      = (storeGetD ([] : Store SwapScript.UserTotals)
          (SwapScript.rowUser lpRowC1) ⟨0, 0⟩).deposits
        + 5 * (1.00000 : ℚ) / 10 ^ 18 :=
  ⟨(C1_lp_rows_and_aggregates [(str "k", 3)] lpRowC1 (by decide)).1 (str "k"),
    (C1_lp_rows_and_aggregates [] lpRowC1 (by decide)).2 []
      (5 * (1.00000 : ℚ) / 10 ^ 18) rfl⟩

end EtherConverter

namespace EtherConverter

/-- initPoolIfNeeded writes only the Pool store: every other entity store is
left unchanged. -/
theorem initPoolIfNeeded_frame (env : Env) (state : State) (poolAddr : Bytes)
    (block : BlockInfo) (maxIndex : Nat) :
    (Helpers.initPoolIfNeeded env state poolAddr block maxIndex).oracles = state.oracles
    ∧ (Helpers.initPoolIfNeeded env state poolAddr block maxIndex).users = state.users
    ∧ (Helpers.initPoolIfNeeded env state poolAddr block maxIndex).deposits = state.deposits
    ∧ (Helpers.initPoolIfNeeded env state poolAddr block maxIndex).withdrawals
      = state.withdrawals := by
  simp only [Helpers.initPoolIfNeeded]
  repeat' split
  all_goals exact ⟨rfl, rfl, rfl, rfl⟩

/-- C7: processing a zero raw-amount row is a no-op: the handleAddLiquidity
loop body with amount 0 returns the state unchanged, and
handleRemoveLiquidityOne with a zero token_amount creates no Deposit or
Withdrawal and leaves the user aggregates and oracle rates unchanged (only
the Pool store may be touched by initPoolIfNeeded). -/
theorem C7_zero_rows_no_effect :
    (∀ (env : Env) (state : State) (pool : Option Pool) (hsh : Bytes)
        (logIndex : Int) (provider : Bytes) (block : BlockInfo) (tokenIndex : Int),
        CurveMapping.addLiquidityRowStep env state pool hsh logIndex provider block
          tokenIndex 0 = state)
    ∧ (∀ (env : Env) (state : State) (pv : Bytes) (tid li : Int) (hsh : Bytes)
        (blk : BlockInfo),
        (CurveMapping.handleRemoveLiquidityOne env state
            ⟨pv, tid, 0, li, hsh, blk⟩).deposits = state.deposits
        ∧ (CurveMapping.handleRemoveLiquidityOne env state
            ⟨pv, tid, 0, li, hsh, blk⟩).withdrawals = state.withdrawals
        ∧ (CurveMapping.handleRemoveLiquidityOne env state
            ⟨pv, tid, 0, li, hsh, blk⟩).users = state.users
        ∧ (CurveMapping.handleRemoveLiquidityOne env state
            ⟨pv, tid, 0, li, hsh, blk⟩).oracles = state.oracles) := by
  constructor
  · intro env state pool hsh logIndex provider block tokenIndex
    simp [CurveMapping.addLiquidityRowStep]
  · intro env state pv tid li hsh blk
    have hL : ∀ (st : State) (p : Pool),
        CurveMapping.handleRemoveLiquidityOneLoaded env st p ⟨pv, tid, 0, li, hsh, blk⟩
          = st := by
      intro st p
      simp [CurveMapping.handleRemoveLiquidityOneLoaded]
    have h1 := initPoolIfNeeded_frame env state Helpers.POOL_ADDRESS blk 8
    have h2 := initPoolIfNeeded_frame env
      (Helpers.initPoolIfNeeded env state Helpers.POOL_ADDRESS blk 8)
      Helpers.POOL_ADDRESS blk 8
    simp only [CurveMapping.handleRemoveLiquidityOne]
    cases hm : storeGet
        (Helpers.initPoolIfNeeded env state Helpers.POOL_ADDRESS blk 8).pools
        (toHexString Helpers.POOL_ADDRESS) with
    | some p =>
      simp only [hm, hL]
      exact ⟨h1.2.2.1, h1.2.2.2, h1.2.1, h1.1⟩
    | none =>
      simp only [hm]
      cases hm2 : storeGet
          (Helpers.initPoolIfNeeded env
            (Helpers.initPoolIfNeeded env state Helpers.POOL_ADDRESS blk 8)
            Helpers.POOL_ADDRESS blk 8).pools
          (toHexString Helpers.POOL_ADDRESS) with
      | some p =>
        simp only [hm2, hL]
        exact ⟨h2.2.2.1.trans h1.2.2.1, h2.2.2.2.trans h1.2.2.2,
          h2.2.1.trans h1.2.1, h2.1.trans h1.1⟩
      | none =>
        simp only [hm2]
        exact ⟨h2.2.2.1.trans h1.2.2.1, h2.2.2.2.trans h1.2.2.2,
          h2.2.1.trans h1.2.1, h2.1.trans h1.1⟩

end EtherConverter

namespace EtherConverter

/-- The probing loop equals: map the probe over the index range, take the
prefix of successful nonzero results, and extract their values. -/
theorem discoverLoop_takeWhile (coins : Nat → Option Bytes) :
    ∀ (fuel i : Nat),
      Helpers.discoverLoop coins i fuel
        = (((List.range' i fuel).map coins).takeWhile probeOk).map probeVal := by
  intro fuel
  induction fuel with
  | zero => intro i; simp [Helpers.discoverLoop]
  | succ n ih =>
    intro i
    rw [List.range'_succ]
    cases hc : coins i with
    | none =>
      simp [Helpers.discoverLoop, hc, probeOk]
    | some c =>
      by_cases hz : c = Helpers.ZERO_ADDRESS
      · simp [Helpers.discoverLoop, hc, hz, probeOk]
      · simp [Helpers.discoverLoop, hc, hz, probeOk, probeVal, ih]

/-- C8: pool-token discovery probes coins(i) for i = 0 .. maxIndex-1 in
increasing order and stops at the first reverted call or zero-sentinel
address; the kept identities are exactly the probed ones that validate as
20-byte values, in probe order, and the persisted Pool stores precisely that
list (no Pool is written when no identity validates).  Every call site passes
the declared default maxIndex = 8. -/
theorem C8_pool_discovery (env : Env) (state : State) (poolAddr : Bytes)
    (block : BlockInfo) (maxIndex : Nat) :
    Helpers.discoverLoop (env.coins poolAddr) 0 maxIndex
      = (((List.range maxIndex).map (env.coins poolAddr)).takeWhile probeOk).map probeVal
    ∧ ((Helpers.discoverLoop (env.coins poolAddr) 0 maxIndex).filter
          (fun b => b.length = 20) = [] →
        Helpers.initPoolIfNeeded env state poolAddr block maxIndex = state)
    ∧ ((Helpers.discoverLoop (env.coins poolAddr) 0 maxIndex).filter
          (fun b => b.length = 20) ≠ [] →
        storeGet (Helpers.initPoolIfNeeded env state poolAddr block maxIndex).pools
            (toHexString poolAddr)
          = some ⟨toHexString poolAddr, poolAddr,
              some (((Helpers.discoverLoop (env.coins poolAddr) 0 maxIndex).filter
                (fun b => b.length = 20)).map some), block.number⟩) := by
  refine ⟨?_, ?_, ?_⟩
  · rw [List.range_eq_range']
    exact discoverLoop_takeWhile (env.coins poolAddr) maxIndex 0
  · intro h
    simp only [Helpers.initPoolIfNeeded]
    rw [if_pos]
    rw [h]
    rfl
  · intro h
    simp only [Helpers.initPoolIfNeeded]
    rw [if_neg (by simpa [List.length_eq_zero] using h)]
    have hw : (if Helpers.FORCE_OVERWRITE = true then true
        else match storeGet state.pools (toHexString poolAddr) with
          | none => true
          | some ex => Helpers.poolTokensInvalid ex
              ((Helpers.discoverLoop (env.coins poolAddr) 0 maxIndex).filter
                (fun b => b.length = 20))) = true := rfl
    rw [if_pos hw]
    exact storeGet_set_self _ _ _

end EtherConverter

namespace EtherConverter

/-- Witness for C8: with coins(0) and coins(1) valid and coins(2) reverting,
discovery persists a two-token Pool holding exactly the discovered identities
in probe order. -/
theorem C8_witness :
    (Helpers.discoverLoop (cexEnv.coins Helpers.POOL_ADDRESS) 0 8).filter
        (fun b => b.length = 20) ≠ []
    ∧ storeGet
        (Helpers.initPoolIfNeeded cexEnv emptyState Helpers.POOL_ADDRESS ⟨1, 2⟩ 8).pools
        (toHexString Helpers.POOL_ADDRESS)
      = some ⟨toHexString Helpers.POOL_ADDRESS, Helpers.POOL_ADDRESS,
          some (((Helpers.discoverLoop (cexEnv.coins Helpers.POOL_ADDRESS) 0 8).filter
            (fun b => b.length = 20)).map some), (⟨1, 2⟩ : BlockInfo).number⟩ :=
  ⟨by decide,
    (C8_pool_discovery cexEnv emptyState Helpers.POOL_ADDRESS ⟨1, 2⟩ 8).2.2 (by decide)⟩

end EtherConverter
